import Mathlib

/-!
# Endless-runner game loop (`src/main.js`)

A shallow embedding of the game logic of `src/main.js`: the module-level
variables become the fields of `World`, every function that writes them becomes
a function `World → World`, and the browser (key events, the restart button,
animation frames) becomes a list of `Event`s.

Numbers.  JavaScript numbers that hold coordinates, speeds and angles are
modelled by exact rationals (the specification's data model calls them real
numbers); `score`, `spawnTimer` and `spawnInterval` only ever hold integers and
are modelled by `ℤ`.  `Math.random()` is an argument `r` of the functions that
reach `createObstacle`.

Scene graph.  Only the obstacle meshes are ever added to or removed from the
scene after `init`, so `scene` holds the identities of the obstacle meshes that
are children of the scene.  `Object3D.add`/`remove` keep the children free of
duplicates and their order is never read, hence a finite set.  A fresh mesh
takes its identity from the counter `nextId`.
-/

namespace Runner

/-- A `THREE.Vector3`. -/
structure Vec3 where
  x : ℚ
  y : ℚ
  z : ℚ
deriving DecidableEq

/-- An obstacle mesh: its object identity and its `position`. -/
structure Obstacle where
  id : Nat
  position : Vec3
deriving DecidableEq

/-- The `style.display` of an overlay element: what the page gave it, or the
value the script assigned. -/
inductive Display where
  | initial
  | none
  | block
deriving DecidableEq

/-- The module-level state of `main.js` (lines 4-15) together with the DOM
fields the script writes. -/
structure World where
  /-- The `player.position`. -/
  player : Vec3
  /-- The `player.rotation.y`. -/
  playerRotationY : ℚ
  /-- The `ground.position.z`. -/
  groundZ : ℚ
  obstacles : List Obstacle
  scene : Finset Nat
  nextId : Nat
  score : ℤ
  gameRunning : Bool
  gameStarted : Bool
  obstacleSpeed : ℚ
  spawnTimer : ℤ
  spawnInterval : ℤ
  /-- The object `keys`; a key never written reads `undefined`, which is falsy. -/
  keys : String → Bool
  /-- The `textContent` of `#score`, once written. -/
  scoreText : Option ℤ
  /-- The `textContent` of `#finalScore`, once written. -/
  finalScoreText : Option ℤ
  instructionsDisplay : Display
  gameOverDisplay : Display

def playerSpeed : ℚ := 0.15

def playerBounds : ℚ := 5

/-- The state `init` leaves behind (lines 6-12, 15, 53, 61); the `animate()`
call that ends `init` runs with `gameRunning = false`. -/
def initialWorld : World where
  player := ⟨0, 0.4, 0⟩
  playerRotationY := 0
  groundZ := -40
  obstacles := []
  scene := ∅
  nextId := 0
  score := 0
  gameRunning := false
  gameStarted := false
  obstacleSpeed := 0.1
  spawnTimer := 0
  spawnInterval := 100
  keys := fun _ => false
  scoreText := Option.none
  finalScoreText := Option.none
  instructionsDisplay := Display.initial
  gameOverDisplay := Display.initial

/-- The `String.prototype.toLowerCase` of a key name, letter by letter; key
names are made of ASCII letters, on which `Char.toLower` is the lower-casing. -/
def toLowerCase (key : String) : String := ⟨key.data.map Char.toLower⟩

/-- The assignment `keys[name] = value`. -/
def setKey (keys : String → Bool) (name : String) (value : Bool) : String → Bool :=
  fun k => if k = name then value else keys k

/-- Lines 198-200. -/
def updateScore (w : World) : World :=
  { w with scoreText := some w.score }

/-- Lines 96-104. -/
def startGame (w : World) : World :=
  if !w.gameStarted then
    updateScore
      { w with
        gameStarted := true
        gameRunning := true
        instructionsDisplay := Display.none
        score := 0 }
  else w

/-- Lines 81-90; `preventDefault` acts on the event only. -/
def onKeyDown (w : World) (key : String) : World :=
  let w1 := if !w.gameStarted then startGame w else w
  { w1 with keys := setKey w1.keys (toLowerCase key) true }

/-- Lines 92-94. -/
def onKeyUp (w : World) (key : String) : World :=
  { w with keys := setKey w.keys (toLowerCase key) false }

/-- Lines 106-125: `scene.remove` is called on every obstacle, then the array
is replaced by an empty one. -/
def restartGame (w : World) : World :=
  updateScore
    { w with
      gameRunning := true
      gameStarted := true
      score := 0
      obstacleSpeed := 0.1
      spawnTimer := 0
      player := ⟨0, 0.4, 0⟩
      scene := w.obstacles.foldl (fun s obstacle => s.erase obstacle.id) w.scene
      obstacles := []
      gameOverDisplay := Display.none
      instructionsDisplay := Display.none }

/-- Lines 127-140, with `r` the value of `Math.random()`. -/
def createObstacle (w : World) (r : ℚ) : World :=
  let obstacle : Obstacle := ⟨w.nextId, ⟨(r - 0.5) * 8, 0.5, -50⟩⟩
  { w with
    nextId := w.nextId + 1
    scene := insert obstacle.id w.scene
    obstacles := w.obstacles ++ [obstacle] }

/-- Lines 142-158. -/
def updatePlayer (w : World) : World :=
  if !w.gameRunning then w
  else
    let x1 := if w.keys "arrowleft" || w.keys "a" then w.player.x - playerSpeed else w.player.x
    let x2 := if w.keys "arrowright" || w.keys "d" then x1 + playerSpeed else x1
    let x3 := max (-playerBounds) (min playerBounds x2)
    { w with
      player := { w.player with x := x3 }
      playerRotationY := w.playerRotationY + 0.02 }

/-- The `Vector3.distanceToSquared`. -/
def distanceToSquared (a b : Vec3) : ℚ :=
  (a.x - b.x) ^ 2 + (a.y - b.y) ^ 2 + (a.z - b.z) ^ 2

/-- The test `a.distanceTo(b) < 1` of line 170: `distanceTo` is the square root
of `distanceToSquared`, and a square root is below 1 exactly when its argument
is (`distanceLtOne_iff_sqrt`). -/
def distanceLtOne (a b : Vec3) : Bool :=
  decide (distanceToSquared a b < 1)

/-- Lines 202-206. -/
def gameOver (w : World) : World :=
  { w with
    gameRunning := false
    finalScoreText := some w.score
    gameOverDisplay := Display.block }

/-- Line 166 on one obstacle: `obstacle.position.z += obstacleSpeed`. -/
def advance (speed : ℚ) (obstacle : Obstacle) : Obstacle :=
  { obstacle with position := { obstacle.position with z := obstacle.position.z + speed } }

/-- What the `for` loop of `updateObstacles` hands back: the state, whether it
left through the `return` of line 172, and a record (kept for the statements
only, read by nothing in the game) of the obstacles it advanced, each as it was
right after line 166, in the order the loop visited them. -/
structure LoopResult where
  world : World
  collided : Bool
  advanced : List Obstacle

/-- Lines 164-182.  `obstacleLoop (i + 1) w h` runs the iterations `i`, `i - 1`,
..., `0`; the bound `h` is what keeps `obstacles[i]` defined, and it survives
each iteration because `splice(i, 1)` takes away index `i` only. -/
def obstacleLoop : (n : Nat) → (w : World) → n ≤ w.obstacles.length → LoopResult
  | 0, w, _ => ⟨w, false, []⟩
  | i + 1, w, h =>
    let obstacle := advance w.obstacleSpeed (w.obstacles.get ⟨i, h⟩)
    let w1 : World := { w with obstacles := w.obstacles.set i obstacle }
    if distanceLtOne w1.player obstacle.position then
      ⟨gameOver w1, true, [obstacle]⟩
    else if obstacle.position.z > 5 then
      let w2 : World := updateScore
        { w1 with
          scene := w1.scene.erase obstacle.id
          obstacles := w1.obstacles.eraseIdx i
          score := w1.score + 10 }
      let rest := obstacleLoop i w2 (by
        simp only [w2, updateScore, w1, List.length_eraseIdx, List.length_set]
        split <;> omega)
      { rest with advanced := obstacle :: rest.advanced }
    else
      let rest := obstacleLoop i w1 (by
        simp only [w1, List.length_set]
        omega)
      { rest with advanced := obstacle :: rest.advanced }

/-- Lines 184-195, with `r` the value of `Math.random()` should line 187 run. -/
def spawnObstacles (w : World) (r : ℚ) : World :=
  let w1 : World := { w with spawnTimer := w.spawnTimer + 1 }
  if w1.spawnTimer ≥ w1.spawnInterval then
    let w2 := createObstacle w1 r
    let w3 : World := { w2 with spawnTimer := 0 }
    if w3.score > 0 ∧ Int.tmod w3.score 100 = 0 then
      { w3 with
        obstacleSpeed := w3.obstacleSpeed + 0.01
        spawnInterval := max 50 (w3.spawnInterval - 2) }
    else w3
  else w1

/-- Lines 160-196. -/
def updateObstacles (w : World) (r : ℚ) : World :=
  if !w.gameRunning then w
  else
    let result := obstacleLoop w.obstacles.length w (le_refl _)
    if result.collided then result.world
    else spawnObstacles result.world r

/-- Lines 208-223, one animation frame; rendering reads the state only. -/
def animate (w : World) (r : ℚ) : World :=
  let w1 := updatePlayer w
  let w2 := updateObstacles w1 r
  if w2.gameRunning then
    let w3 : World := { w2 with groundZ := w2.groundZ + w2.obstacleSpeed }
    if w3.groundZ > 10 then { w3 with groundZ := -40 } else w3
  else w2

/-- What the browser can do to the page: a key goes down or up, the restart
button is clicked, or an animation frame runs (with the random draw it would
use). -/
inductive Event where
  | keyDown (key : String)
  | keyUp (key : String)
  | restart
  | frame (r : ℚ)

def step (w : World) : Event → World
  | Event.keyDown key => onKeyDown w key
  | Event.keyUp key => onKeyUp w key
  | Event.restart => restartGame w
  | Event.frame r => animate w r

def run (w : World) (events : List Event) : World :=
  events.foldl step w

/-- A random draw is a value `Math.random()` can return. -/
def Event.Valid : Event → Prop
  | Event.frame r => 0 ≤ r ∧ r < 1
  | _ => True

/-- The states the page can be in: the state after `init`, and every state an
event leads to from one of them. -/
inductive Reachable : World → Prop where
  | init : Reachable initialWorld
  | step {w : World} (e : Event) : Reachable w → e.Valid → Reachable (step w e)

/-- Lifecycle Running. -/
def Running (w : World) : Prop := w.gameStarted = true ∧ w.gameRunning = true

/-- The test of line 176 on an obstacle already advanced. -/
def passed (obstacle : Obstacle) : Bool :=
  decide (obstacle.position.z > 5)

/-- The test of line 170 on an obstacle already advanced. -/
def hits (player : Vec3) (obstacle : Obstacle) : Bool :=
  distanceLtOne player obstacle.position

/-- What one run of the loop over the first `pre.length` obstacles does, as a
relation between the state before (`obstacles = pre ++ suf`) and the result:
either no obstacle of `pre` hits the player and all of `pre` is advanced and
sifted, or the loop stops at the last obstacle `c` of `pre` that hits. -/
def LoopSpec (w : World) (pre suf : List Obstacle) (res : LoopResult) : Prop :=
  (res.collided = false ∧
    (∀ o ∈ pre, hits w.player (advance w.obstacleSpeed o) = false) ∧
    res.advanced = (pre.map (advance w.obstacleSpeed)).reverse ∧
    res.world.obstacles =
      (pre.map (advance w.obstacleSpeed)).filter (fun o => !passed o) ++ suf ∧
    res.world.score = w.score + 10 * ((pre.map (advance w.obstacleSpeed)).filter passed).length ∧
    res.world.scene =
      w.scene \ (((pre.map (advance w.obstacleSpeed)).filter passed).map Obstacle.id).toFinset ∧
    res.world.gameRunning = w.gameRunning)
  ∨
  (res.collided = true ∧
    ∃ pre1 c t, pre = pre1 ++ c :: t ∧
      hits w.player (advance w.obstacleSpeed c) = true ∧
      (∀ o ∈ t, hits w.player (advance w.obstacleSpeed o) = false) ∧
      res.advanced = ((c :: t).map (advance w.obstacleSpeed)).reverse ∧
      res.world.obstacles =
        pre1 ++ advance w.obstacleSpeed c ::
          ((t.map (advance w.obstacleSpeed)).filter (fun o => !passed o) ++ suf) ∧
      res.world.score = w.score + 10 * ((t.map (advance w.obstacleSpeed)).filter passed).length ∧
      res.world.scene =
        w.scene \ (((t.map (advance w.obstacleSpeed)).filter passed).map Obstacle.id).toFinset ∧
      res.world.gameRunning = false)

/-- The shape every reachable state has: the player stays on its rail, every
obstacle mesh is a distinct object older than the identity counter, the scene
holds exactly the obstacles of the array, and the score is a non-negative
multiple of 10. -/
structure WF (w : World) : Prop where
  player_y : w.player.y = 0.4
  player_z : w.player.z = 0
  player_x : -5 ≤ w.player.x ∧ w.player.x ≤ 5
  ids_nodup : (w.obstacles.map Obstacle.id).Nodup
  ids_fresh : ∀ o ∈ w.obstacles, o.id < w.nextId
  scene_eq : w.scene = (w.obstacles.map Obstacle.id).toFinset
  score_nonneg : 0 ≤ w.score
  score_dvd : 10 ∣ w.score
  started : w.gameRunning = true → w.gameStarted = true

/-! ## Sample states -/

/-- The game right after the first key press (here the space bar). -/
def startedWorld : World := onKeyDown initialWorld " "

theorem getElem_append_cons_length (l : List Obstacle) (o : Obstacle) (suf : List Obstacle)
    (h : l.length < (l ++ o :: suf).length) : (l ++ o :: suf)[l.length] = o := by
  induction l with
  | nil => rfl
  | cons a l ih => simpa using ih (by simp)

theorem eraseIdx_append_cons_length (l : List Obstacle) (o : Obstacle) (suf : List Obstacle) :
    (l ++ o :: suf).eraseIdx l.length = l ++ suf := by
  induction l with
  | nil => rfl
  | cons a l ih => simpa using ih

theorem obstacleLoop_succ (w : World) (l : List Obstacle) (o : Obstacle) (suf : List Obstacle)
    (hw : w.obstacles = l ++ o :: suf) (h : l.length + 1 ≤ w.obstacles.length) :
    obstacleLoop (l.length + 1) w h =
      if distanceLtOne w.player (advance w.obstacleSpeed o).position then
        ⟨gameOver { w with obstacles := l ++ advance w.obstacleSpeed o :: suf }, true,
          [advance w.obstacleSpeed o]⟩
      else if (advance w.obstacleSpeed o).position.z > 5 then
        { obstacleLoop l.length
            { w with
              scene := w.scene.erase (advance w.obstacleSpeed o).id
              obstacles := l ++ suf
              score := w.score + 10
              scoreText := some (w.score + 10) } (by simp) with
          advanced := advance w.obstacleSpeed o ::
            (obstacleLoop l.length
              { w with
                scene := w.scene.erase (advance w.obstacleSpeed o).id
                obstacles := l ++ suf
                score := w.score + 10
                scoreText := some (w.score + 10) } (by simp)).advanced }
      else
        { obstacleLoop l.length { w with obstacles := l ++ advance w.obstacleSpeed o :: suf }
            (by simp) with
          advanced := advance w.obstacleSpeed o ::
            (obstacleLoop l.length { w with obstacles := l ++ advance w.obstacleSpeed o :: suf }
              (by simp)).advanced } := by
  obtain ⟨p, rot, g, obs, sc, nid, s, gr, gs, sp, t, iv, k, st, ft, idp, gd⟩ := w
  simp only at hw
  subst hw
  simp [obstacleLoop, updateScore, getElem_append_cons_length, eraseIdx_append_cons_length]

theorem obstacleLoop_spec : ∀ (n : Nat) (w : World) (pre suf : List Obstacle)
    (h : n ≤ w.obstacles.length), w.obstacles = pre ++ suf → pre.length = n →
    LoopSpec w pre suf (obstacleLoop n w h) := by
  intro n
  induction n with
  | zero =>
    intro w pre suf h hw hlen
    have hpre : pre = [] := List.length_eq_zero.mp hlen
    subst hpre
    left
    simpa [obstacleLoop] using hw
  | succ n ih =>
    intro w pre suf h hw hlen
    rcases List.eq_nil_or_concat pre with hnil | ⟨l, o, hpre⟩
    · subst hnil
      simp at hlen
    rw [List.concat_eq_append] at hpre
    subst hpre
    have hn : n = l.length := by simpa using hlen.symm
    subst hn
    have hw2 : w.obstacles = l ++ o :: suf := by simpa using hw
    rw [obstacleLoop_succ w l o suf hw2]
    split_ifs with hhit hpass
    · right
      refine ⟨rfl, l, o, [], rfl, hhit, ?_⟩
      simp [gameOver]
    · have hpass2 : passed (advance w.obstacleSpeed o) = true := by simpa [passed] using hpass
      have hhit2 : hits w.player (advance w.obstacleSpeed o) = false := by simpa [hits] using hhit
      rcases ih { w with
              scene := w.scene.erase (advance w.obstacleSpeed o).id
              obstacles := l ++ suf
              score := w.score + 10
              scoreText := some (w.score + 10) } l suf (by simp) rfl rfl with
        ⟨hc, hno, hadv, hobs, hscore, hscene, hrun⟩ |
        ⟨hc, pre1, c, t, hl, hch, hno, hadv, hobs, hscore, hscene, hrun⟩
      · left
        simp only at hno hadv hobs hscore hscene hrun
        refine ⟨hc, ?_, ?_, ?_, ?_, ?_, hrun⟩
        · intro x hx
          rcases List.mem_append.mp hx with hx | hx
          · exact hno x hx
          · simp at hx; subst hx; exact hhit2
        · simp [hadv]
        · simp [hobs, List.filter_append, hpass2]
        · simp [hscore, List.filter_append, hpass2]; ring
        · rw [hscene]
          ext a
          simp [List.filter_append, hpass2]
          tauto
      · right
        simp only at hch hno hadv hobs hscore hscene hrun
        refine ⟨hc, pre1, c, t ++ [o], by simp [hl], hch, ?_, ?_, ?_, ?_, ?_, hrun⟩
        · intro x hx
          rcases List.mem_append.mp hx with hx | hx
          · exact hno x hx
          · simp at hx; subst hx; exact hhit2
        · simp [hadv]
        · simp [hobs, List.filter_append, hpass2]
        · simp [hscore, List.filter_append, hpass2]; ring
        · rw [hscene]
          ext a
          simp [List.filter_append, hpass2]
          tauto
    · have hpass2 : passed (advance w.obstacleSpeed o) = false := by simpa [passed] using hpass
      have hhit2 : hits w.player (advance w.obstacleSpeed o) = false := by simpa [hits] using hhit
      rcases ih { w with obstacles := l ++ advance w.obstacleSpeed o :: suf } l
          (advance w.obstacleSpeed o :: suf) (by simp) rfl rfl with
        ⟨hc, hno, hadv, hobs, hscore, hscene, hrun⟩ |
        ⟨hc, pre1, c, t, hl, hch, hno, hadv, hobs, hscore, hscene, hrun⟩
      · left
        simp only at hno hadv hobs hscore hscene hrun
        refine ⟨hc, ?_, ?_, ?_, ?_, ?_, hrun⟩
        · intro x hx
          rcases List.mem_append.mp hx with hx | hx
          · exact hno x hx
          · simp at hx; subst hx; exact hhit2
        · simp [hadv]
        · simp [hobs, List.filter_append, hpass2]
        · simp [hscore, List.filter_append, hpass2]
        · rw [hscene]
          simp [List.filter_append, hpass2]
      · right
        simp only at hch hno hadv hobs hscore hscene hrun
        refine ⟨hc, pre1, c, t ++ [o], by simp [hl], hch, ?_, ?_, ?_, ?_, ?_, hrun⟩
        · intro x hx
          rcases List.mem_append.mp hx with hx | hx
          · exact hno x hx
          · simp at hx; subst hx; exact hhit2
        · simp [hadv]
        · simp [hobs, List.filter_append, hpass2]
        · simp [hscore, List.filter_append, hpass2]
        · rw [hscene]
          simp [List.filter_append, hpass2]

theorem foldl_erase_eq (l : List Obstacle) : ∀ s : Finset Nat,
    l.foldl (fun s obstacle => s.erase obstacle.id) s = s \ (l.map Obstacle.id).toFinset := by
  induction l with
  | nil => intro s; simp
  | cons a l ih =>
    intro s
    simp only [List.foldl_cons, ih]
    ext x
    simp
    tauto

theorem obstacleLoop_wf : ∀ (n : Nat) (w : World) (pre suf : List Obstacle)
    (h : n ≤ w.obstacles.length), w.obstacles = pre ++ suf → pre.length = n → WF w →
    WF (obstacleLoop n w h).world := by
  intro n
  induction n with
  | zero => intro w pre suf h _ _ hwf; simpa [obstacleLoop] using hwf
  | succ n ih =>
    intro w pre suf h hw hlen hwf
    rcases List.eq_nil_or_concat pre with hnil | ⟨l, o, hpre⟩
    · subst hnil
      simp at hlen
    rw [List.concat_eq_append] at hpre
    subst hpre
    have hn : n = l.length := by simpa using hlen.symm
    subst hn
    have hw2 : w.obstacles = l ++ o :: suf := by simpa using hw
    have hnd := hwf.ids_nodup
    have hfr := hwf.ids_fresh
    have hsc := hwf.scene_eq
    rw [hw2] at hnd hfr hsc
    rw [obstacleLoop_succ w l o suf hw2]
    have hset : WF { w with obstacles := l ++ advance w.obstacleSpeed o :: suf } :=
      { player_y := hwf.player_y
        player_z := hwf.player_z
        player_x := hwf.player_x
        ids_nodup := by simpa [advance] using hnd
        ids_fresh := by
          intro x hx
          simp only [List.mem_append, List.mem_cons] at hx
          rcases hx with hx | hx | hx
          · exact hfr x (by simp [hx])
          · subst hx; exact hfr o (by simp)
          · exact hfr x (by simp [hx])
        scene_eq := by simpa [advance] using hsc
        score_nonneg := hwf.score_nonneg
        score_dvd := hwf.score_dvd
        started := hwf.started }
    split_ifs with hhit hpass
    · exact
        { player_y := hset.player_y
          player_z := hset.player_z
          player_x := hset.player_x
          ids_nodup := hset.ids_nodup
          ids_fresh := hset.ids_fresh
          scene_eq := hset.scene_eq
          score_nonneg := hset.score_nonneg
          score_dvd := hset.score_dvd
          started := by simp [gameOver] }
    · refine (ih _ l suf _ rfl rfl ?_)
      exact
        { player_y := hwf.player_y
          player_z := hwf.player_z
          player_x := hwf.player_x
          ids_nodup := by
            simp only [List.map_append, List.map_cons] at hnd ⊢
            exact (List.nodup_append.mp hnd).1.append
              ((List.nodup_cons.mp (List.nodup_append.mp hnd).2.1).2)
              (fun a ha hb => (List.nodup_append.mp hnd).2.2 ha (List.mem_cons_of_mem _ hb))
          ids_fresh := by
            intro x hx
            simp only [List.mem_append] at hx
            rcases hx with hx | hx
            · exact hfr x (by simp [hx])
            · exact hfr x (by simp [hx])
          scene_eq := by
            simp only [hsc]
            have hnot : o.id ∉ l.map Obstacle.id ∧ o.id ∉ suf.map Obstacle.id := by
              simp only [List.map_append, List.map_cons] at hnd
              have h1 := List.nodup_append.mp hnd
              refine ⟨fun hm => h1.2.2 hm (List.mem_cons_self _ _), ?_⟩
              exact (List.nodup_cons.mp h1.2.1).1
            ext a
            simp only [advance, List.map_append, List.map_cons, List.toFinset_append,
              List.toFinset_cons, Finset.mem_erase, Finset.mem_union, Finset.mem_insert,
              List.mem_toFinset]
            constructor
            · rintro ⟨hne, h1 | h1 | h1⟩
              · exact Or.inl h1
              · exact absurd h1 hne
              · exact Or.inr h1
            · rintro (h1 | h1)
              · exact ⟨fun he => hnot.1 (he ▸ h1), Or.inl h1⟩
              · exact ⟨fun he => hnot.2 (he ▸ h1), Or.inr (Or.inr h1)⟩
          score_nonneg := by have := hwf.score_nonneg; simp only; omega
          score_dvd := by have := hwf.score_dvd; simp only; omega
          started := hwf.started }
    · exact ih _ l (advance w.obstacleSpeed o :: suf) _ rfl rfl hset

/-! ## Every reachable state is well formed -/

theorem updatePlayer_wf (w : World) (hwf : WF w) : WF (updatePlayer w) := by
  unfold updatePlayer
  by_cases hrun : (!w.gameRunning) = true
  · rw [if_pos hrun]
    exact hwf
  · rw [if_neg hrun]
    exact
      { player_y := hwf.player_y
        player_z := hwf.player_z
        player_x := by
          simp only [playerBounds]
          exact ⟨le_max_left _ _, max_le (by norm_num) (min_le_left _ _)⟩
        ids_nodup := hwf.ids_nodup
        ids_fresh := hwf.ids_fresh
        scene_eq := hwf.scene_eq
        score_nonneg := hwf.score_nonneg
        score_dvd := hwf.score_dvd
        started := hwf.started }

theorem createObstacle_wf (w : World) (r : ℚ) (hwf : WF w) : WF (createObstacle w r) :=
  { player_y := hwf.player_y
    player_z := hwf.player_z
    player_x := hwf.player_x
    ids_nodup := by
      simp only [createObstacle, List.map_append, List.map_cons, List.map_nil]
      refine List.Nodup.append hwf.ids_nodup (List.nodup_singleton _) ?_
      intro a ha hb
      simp only [List.mem_singleton] at hb
      obtain ⟨o, ho, rfl⟩ := List.mem_map.mp ha
      have := hwf.ids_fresh o ho
      omega
    ids_fresh := by
      intro x hx
      simp only [createObstacle, List.mem_append, List.mem_singleton] at hx ⊢
      rcases hx with hx | hx
      · have := hwf.ids_fresh x hx
        omega
      · subst hx
        simp
    scene_eq := by
      simp only [createObstacle, hwf.scene_eq, List.map_append, List.map_cons, List.map_nil,
        List.toFinset_append, List.toFinset_cons, List.toFinset_nil]
      ext a
      simp only [Finset.mem_insert, Finset.mem_union, Finset.not_mem_empty, or_false]
      tauto
    score_nonneg := hwf.score_nonneg
    score_dvd := hwf.score_dvd
    started := hwf.started }

theorem spawnObstacles_wf (w : World) (r : ℚ) (hwf : WF w) : WF (spawnObstacles w r) := by
  have h1 : WF { w with spawnTimer := w.spawnTimer + 1 } :=
    { player_y := hwf.player_y
      player_z := hwf.player_z
      player_x := hwf.player_x
      ids_nodup := hwf.ids_nodup
      ids_fresh := hwf.ids_fresh
      scene_eq := hwf.scene_eq
      score_nonneg := hwf.score_nonneg
      score_dvd := hwf.score_dvd
      started := hwf.started }
  have h2 := createObstacle_wf _ r h1
  unfold spawnObstacles
  simp only
  split_ifs
  · exact
      { player_y := h2.player_y
        player_z := h2.player_z
        player_x := h2.player_x
        ids_nodup := h2.ids_nodup
        ids_fresh := h2.ids_fresh
        scene_eq := h2.scene_eq
        score_nonneg := h2.score_nonneg
        score_dvd := h2.score_dvd
        started := h2.started }
  · exact
      { player_y := h2.player_y
        player_z := h2.player_z
        player_x := h2.player_x
        ids_nodup := h2.ids_nodup
        ids_fresh := h2.ids_fresh
        scene_eq := h2.scene_eq
        score_nonneg := h2.score_nonneg
        score_dvd := h2.score_dvd
        started := h2.started }
  · exact h1

theorem updateObstacles_wf (w : World) (r : ℚ) (hwf : WF w) : WF (updateObstacles w r) := by
  unfold updateObstacles
  have hloop := obstacleLoop_wf w.obstacles.length w w.obstacles [] (le_refl _) (by simp) rfl hwf
  simp only
  split_ifs
  · exact hwf
  · exact hloop
  · exact spawnObstacles_wf _ r hloop

theorem animate_wf (w : World) (r : ℚ) (hwf : WF w) : WF (animate w r) := by
  have h2 := updateObstacles_wf _ r (updatePlayer_wf w hwf)
  have h3 : ∀ g : ℚ, WF { updateObstacles (updatePlayer w) r with groundZ := g } := fun g =>
    { player_y := h2.player_y
      player_z := h2.player_z
      player_x := h2.player_x
      ids_nodup := h2.ids_nodup
      ids_fresh := h2.ids_fresh
      scene_eq := h2.scene_eq
      score_nonneg := h2.score_nonneg
      score_dvd := h2.score_dvd
      started := h2.started }
  unfold animate
  simp only
  split_ifs
  · exact h3 _
  · exact h3 _
  · exact h2

theorem restartGame_wf (w : World) (hwf : WF w) : WF (restartGame w) :=
  { player_y := rfl
    player_z := rfl
    player_x := by simp [restartGame, updateScore]
    ids_nodup := by simp [restartGame, updateScore]
    ids_fresh := by simp [restartGame, updateScore]
    scene_eq := by
      simp [restartGame, updateScore, foldl_erase_eq, hwf.scene_eq]
    score_nonneg := by simp [restartGame, updateScore]
    score_dvd := by simp [restartGame, updateScore]
    started := by simp [restartGame, updateScore] }

theorem onKeyDown_wf (w : World) (key : String) (hwf : WF w) : WF (onKeyDown w key) := by
  unfold onKeyDown startGame
  simp only
  split_ifs
  · exact
      { player_y := hwf.player_y
        player_z := hwf.player_z
        player_x := hwf.player_x
        ids_nodup := hwf.ids_nodup
        ids_fresh := hwf.ids_fresh
        scene_eq := hwf.scene_eq
        score_nonneg := by simp [updateScore]
        score_dvd := by simp [updateScore]
        started := by simp [updateScore] }
  · exact
      { player_y := hwf.player_y
        player_z := hwf.player_z
        player_x := hwf.player_x
        ids_nodup := hwf.ids_nodup
        ids_fresh := hwf.ids_fresh
        scene_eq := hwf.scene_eq
        score_nonneg := hwf.score_nonneg
        score_dvd := hwf.score_dvd
        started := hwf.started }

theorem onKeyUp_wf (w : World) (key : String) (hwf : WF w) : WF (onKeyUp w key) :=
  { player_y := hwf.player_y
    player_z := hwf.player_z
    player_x := hwf.player_x
    ids_nodup := hwf.ids_nodup
    ids_fresh := hwf.ids_fresh
    scene_eq := hwf.scene_eq
    score_nonneg := hwf.score_nonneg
    score_dvd := hwf.score_dvd
    started := hwf.started }

theorem initialWorld_wf : WF initialWorld :=
  { player_y := rfl
    player_z := rfl
    player_x := by norm_num [initialWorld]
    ids_nodup := by simp [initialWorld]
    ids_fresh := by simp [initialWorld]
    scene_eq := by simp [initialWorld]
    score_nonneg := by simp [initialWorld]
    score_dvd := by simp [initialWorld]
    started := by simp [initialWorld] }

theorem step_wf (w : World) (e : Event) (hwf : WF w) : WF (step w e) := by
  cases e with
  | keyDown key => exact onKeyDown_wf w key hwf
  | keyUp key => exact onKeyUp_wf w key hwf
  | restart => exact restartGame_wf w hwf
  | frame r => exact animate_wf w r hwf

theorem reachable_wf {w : World} (h : Reachable w) : WF w := by
  induction h with
  | init => exact initialWorld_wf
  | step e _ _ ih => exact step_wf _ e ih

theorem run_reachable (events : List Event) : ∀ w : World, Reachable w →
    (∀ e ∈ events, e.Valid) → Reachable (run w events) := by
  induction events with
  | nil => intro w hw _; exact hw
  | cons e es ih =>
    intro w hw hv
    exact ih (step w e) (Reachable.step e hw (hv e (List.mem_cons_self _ _)))
      (fun e' he' => hv e' (List.mem_cons_of_mem _ he'))

/-- C1: in every reachable state the player's x lies in [-5, 5], and for every
Running state (whatever keys are held) the x that `updatePlayer` produces is
the old x, moved by -0.15 when left/A is held and by +0.15 when right/D is
held, clamped by `max(-5, min(5, ·))`. -/
theorem player_x_within_bounds (w : World) (h : Reachable w) :
    (-5 ≤ w.player.x ∧ w.player.x ≤ 5) ∧
    ∀ v : World, Running v →
      (updatePlayer v).player.x =
        max (-5) (min 5
          (v.player.x - (if v.keys "arrowleft" || v.keys "a" then 0.15 else 0)
            + (if v.keys "arrowright" || v.keys "d" then 0.15 else 0))) := by
  refine ⟨(reachable_wf h).player_x, ?_⟩
  intro v hv
  have hrun : v.gameRunning = true := hv.2
  unfold updatePlayer
  rw [if_neg (by simp [hrun])]
  simp only [playerSpeed, playerBounds]
  split_ifs <;> norm_num

/-- After a press of ArrowRight and one frame the player stands at x = 0.15,
within the bounds. -/
theorem player_x_within_bounds_witness :
    (run initialWorld [Event.keyDown "ArrowRight", Event.frame 0.5]).player.x = 0.15 ∧
    ((-5 ≤ (run initialWorld [Event.keyDown "ArrowRight", Event.frame 0.5]).player.x ∧
      (run initialWorld [Event.keyDown "ArrowRight", Event.frame 0.5]).player.x ≤ 5) ∧
    ∀ v : World, Running v →
      (updatePlayer v).player.x =
        max (-5) (min 5
          (v.player.x - (if v.keys "arrowleft" || v.keys "a" then 0.15 else 0)
            + (if v.keys "arrowright" || v.keys "d" then 0.15 else 0)))) := by
  refine ⟨?_, player_x_within_bounds _
    (run_reachable _ _ Reachable.init (by
      intro e he
      simp only [List.mem_cons, List.mem_singleton, List.not_mem_nil, or_false] at he
      rcases he with rfl | rfl
      · trivial
      · exact ⟨by norm_num, by norm_num⟩))⟩
  have hk : toLowerCase "ArrowRight" = "arrowright" := by decide
  simp [run, step, onKeyDown, startGame, updateScore, initialWorld, animate, updatePlayer,
    updateObstacles, setKey, hk, obstacleLoop, spawnObstacles, playerSpeed, playerBounds]
  norm_num

theorem animate_of_not_running (w : World) (r : ℚ) (h : w.gameRunning = false) :
    animate w r = w := by
  simp [animate, updatePlayer, updateObstacles, h]

/-- C4: when `gameRunning` is false (NotStarted or Over), one frame of the
update step returns the very same world state, whatever keys are held and
whatever the random draw, and so does any number of frames. -/
theorem update_noop_when_not_running (w : World) (h : w.gameRunning = false) :
    (∀ r : ℚ, animate w r = w) ∧
    (∀ r : ℚ, updateObstacles (updatePlayer w) r = w) ∧
    ∀ rs : List ℚ, rs.foldl animate w = w := by
  refine ⟨fun r => animate_of_not_running w r h, ?_, ?_⟩
  · intro r
    simp [updatePlayer, updateObstacles, h]
  · intro rs
    induction rs with
    | nil => rfl
    | cons r rs ih => simpa [List.foldl_cons, animate_of_not_running w r h] using ih

/-- The state after `init` (NotStarted) is a fixed point of the update step. -/
theorem update_noop_when_not_running_witness :
    (∀ r : ℚ, animate initialWorld r = initialWorld) ∧
    (∀ r : ℚ, updateObstacles (updatePlayer initialWorld) r = initialWorld) ∧
    ∀ rs : List ℚ, rs.foldl animate initialWorld = initialWorld :=
  update_noop_when_not_running initialWorld rfl

/-- C5: whatever the state, after `restartGame` the score is 0, the obstacle
speed 0.1, the spawn timer 0, the player at (0, 0.4, 0), the obstacles
collection empty with every former obstacle out of the scene, and the lifecycle
Running. -/
theorem restartGame_resets (w : World) :
    (restartGame w).score = 0 ∧
    (restartGame w).obstacleSpeed = 0.1 ∧
    (restartGame w).spawnTimer = 0 ∧
    (restartGame w).player = ⟨0, 0.4, 0⟩ ∧
    (restartGame w).obstacles = [] ∧
    (∀ o ∈ w.obstacles, o.id ∉ (restartGame w).scene) ∧
    (restartGame w).gameStarted = true ∧
    (restartGame w).gameRunning = true ∧
    Running (restartGame w) := by
  refine ⟨rfl, rfl, rfl, rfl, rfl, ?_, rfl, rfl, rfl, rfl⟩
  intro o ho
  simp only [restartGame, updateScore, foldl_erase_eq, Finset.mem_sdiff, List.mem_toFinset,
    List.mem_map, not_and, not_not]
  intro _
  exact ⟨o, ho, rfl⟩

/-- C10: `restartGame` leaves `spawnInterval`, the ground position and the
held-keys map as they were, while it puts `obstacleSpeed` back to 0.1. -/
theorem restartGame_keeps_spawnInterval (w : World) :
    (restartGame w).spawnInterval = w.spawnInterval ∧
    (restartGame w).groundZ = w.groundZ ∧
    (restartGame w).keys = w.keys ∧
    (restartGame w).obstacleSpeed = 0.1 :=
  ⟨rfl, rfl, rfl, rfl⟩

theorem updateObstacles_score (w : World) (r : ℚ) :
    ∃ k : ℕ, (updateObstacles w r).score = w.score + 10 * k := by
  unfold updateObstacles
  simp only
  have hscore : ∃ k : ℕ, (obstacleLoop w.obstacles.length w (le_refl _)).world.score =
      w.score + 10 * k := by
    rcases obstacleLoop_spec w.obstacles.length w w.obstacles [] (le_refl _) (by simp) rfl with
      ⟨_, _, _, _, hs, _⟩ | ⟨_, _, _, _, _, _, _, _, _, hs, _⟩
    · exact ⟨_, hs⟩
    · exact ⟨_, hs⟩
  split_ifs
  · exact ⟨0, by simp⟩
  · exact hscore
  · obtain ⟨k, hk⟩ := hscore
    refine ⟨k, ?_⟩
    rw [← hk]
    simp only [spawnObstacles, createObstacle]
    split_ifs <;> rfl

theorem animate_score (w : World) (r : ℚ) : (animate w r).score = (updateObstacles (updatePlayer w) r).score := by
  simp only [animate]
  split_ifs <;> rfl

theorem updatePlayer_score (w : World) : (updatePlayer w).score = w.score := by
  simp only [updatePlayer]
  split_ifs <;> rfl

/-- C8: in every reachable state the score is a non-negative multiple of 10,
and a frame update never lowers the score (from any state at all). -/
theorem score_multiple_of_ten (w : World) (h : Reachable w) :
    0 ≤ w.score ∧ (∃ k : ℤ, w.score = 10 * k) ∧
    ∀ (v : World) (r : ℚ), v.score ≤ (animate v r).score := by
  refine ⟨(reachable_wf h).score_nonneg, (reachable_wf h).score_dvd, ?_⟩
  intro v r
  obtain ⟨k, hk⟩ := updateObstacles_score (updatePlayer v) r
  rw [animate_score, hk, updatePlayer_score]
  have : (0 : ℤ) ≤ (k : ℤ) := Int.ofNat_nonneg k
  omega

/-- The invariant at the state reached by one key press and one frame. -/
theorem score_multiple_of_ten_witness :
    0 ≤ (run initialWorld [Event.keyDown "a", Event.frame 0.5]).score ∧
    (∃ k : ℤ, (run initialWorld [Event.keyDown "a", Event.frame 0.5]).score = 10 * k) ∧
    ∀ (v : World) (r : ℚ), v.score ≤ (animate v r).score :=
  score_multiple_of_ten _
    (run_reachable _ _ Reachable.init (by
      intro e he
      simp only [List.mem_cons, List.mem_singleton, List.not_mem_nil, or_false] at he
      rcases he with rfl | rfl
      · trivial
      · exact ⟨by norm_num, by norm_num⟩))

theorem obstacleLoop_nil : ∀ (n : Nat) (w : World) (h : n ≤ w.obstacles.length),
    w.obstacles = [] → obstacleLoop n w h = ⟨w, false, []⟩ := by
  intro n w h hobs
  cases n with
  | zero => rfl
  | succ n =>
    rw [hobs] at h
    simp at h

theorem updatePlayer_frame (w : World) :
    (updatePlayer w).obstacles = w.obstacles ∧
    (updatePlayer w).gameRunning = w.gameRunning ∧
    (updatePlayer w).gameStarted = w.gameStarted ∧
    (updatePlayer w).spawnTimer = w.spawnTimer ∧
    (updatePlayer w).spawnInterval = w.spawnInterval ∧
    (updatePlayer w).obstacleSpeed = w.obstacleSpeed ∧
    (updatePlayer w).nextId = w.nextId ∧
    (updatePlayer w).groundZ = w.groundZ ∧
    (updatePlayer w).scene = w.scene := by
  unfold updatePlayer
  by_cases h : (!w.gameRunning) = true
  · rw [if_pos h]
    simp
  · rw [if_neg h]
    simp

/-- One frame of a running game without obstacles: nothing but the spawn step
acts on the obstacles. -/
theorem animate_no_obstacles (w : World) (r : ℚ) (hrun : w.gameRunning = true)
    (hobs : w.obstacles = []) :
    (animate w r).gameRunning = true ∧
    (animate w r).gameStarted = w.gameStarted ∧
    (animate w r).spawnInterval = (spawnObstacles (updatePlayer w) r).spawnInterval ∧
    (animate w r).spawnTimer = (spawnObstacles (updatePlayer w) r).spawnTimer ∧
    (animate w r).obstacles = (spawnObstacles (updatePlayer w) r).obstacles := by
  obtain ⟨h1, h2, h3, -⟩ := updatePlayer_frame w
  have hu : updateObstacles (updatePlayer w) r = spawnObstacles (updatePlayer w) r := by
    unfold updateObstacles
    rw [if_neg (by simp [h2, hrun])]
    simp [obstacleLoop_nil _ _ _ (h1.trans hobs)]
  have hsr : (spawnObstacles (updatePlayer w) r).gameRunning = true := by
    simp only [spawnObstacles, createObstacle]
    split_ifs <;> simp [h2, hrun]
  have hss : (spawnObstacles (updatePlayer w) r).gameStarted = w.gameStarted := by
    simp only [spawnObstacles, createObstacle]
    split_ifs <;> simp [h3]
  unfold animate
  simp only [hu, hsr, if_true]
  split_ifs <;> simp [hsr, hss]

theorem animate_idle (w : World) (r : ℚ) (hrun : w.gameRunning = true)
    (hobs : w.obstacles = []) (ht : w.spawnTimer + 1 < w.spawnInterval) :
    (animate w r).gameRunning = true ∧
    (animate w r).gameStarted = w.gameStarted ∧
    (animate w r).spawnInterval = w.spawnInterval ∧
    (animate w r).spawnTimer = w.spawnTimer + 1 ∧
    (animate w r).obstacles = [] := by
  obtain ⟨h1, h2, h3, h4, h5⟩ := animate_no_obstacles w r hrun hobs
  obtain ⟨u1, -, -, u4, u5, -⟩ := updatePlayer_frame w
  have hn : ¬ (updatePlayer w).spawnTimer + 1 ≥ (updatePlayer w).spawnInterval := by
    rw [u4, u5]
    omega
  have hs : spawnObstacles (updatePlayer w) r =
      { updatePlayer w with spawnTimer := (updatePlayer w).spawnTimer + 1 } := by
    simp only [spawnObstacles, if_neg hn]
  rw [h3, h4, h5, hs]
  exact ⟨h1, h2, u5, by simp only [u4], by simp only [u1, hobs]⟩

theorem frames_idle (rs : List ℚ) : ∀ w : World, w.gameRunning = true → w.obstacles = [] →
    w.spawnTimer + rs.length < w.spawnInterval →
    (rs.foldl animate w).gameRunning = true ∧
    (rs.foldl animate w).gameStarted = w.gameStarted ∧
    (rs.foldl animate w).spawnInterval = w.spawnInterval ∧
    (rs.foldl animate w).spawnTimer = w.spawnTimer + rs.length ∧
    (rs.foldl animate w).obstacles = [] := by
  induction rs with
  | nil => intro w hrun hobs _; simp [hrun, hobs]
  | cons r rs ih =>
    intro w hrun hobs ht
    simp only [List.length_cons, Nat.cast_add, Nat.cast_one] at ht
    obtain ⟨a1, a2, a3, a4, a5⟩ := animate_idle w r hrun hobs (by omega)
    obtain ⟨b1, b2, b3, b4, b5⟩ := ih (animate w r) a1 a5 (by rw [a4, a3]; omega)
    simp only [List.foldl_cons, List.length_cons, Nat.cast_add, Nat.cast_one]
    refine ⟨b1, b2.trans a2, b3.trans a3, ?_, b5⟩
    rw [b4, a4]
    ring

theorem animate_spawn (w : World) (r : ℚ) (hrun : w.gameRunning = true)
    (hobs : w.obstacles = []) (ht : w.spawnTimer + 1 ≥ w.spawnInterval) :
    (animate w r).gameRunning = true ∧
    (animate w r).gameStarted = w.gameStarted ∧
    (animate w r).obstacles = [⟨w.nextId, ⟨(r - 0.5) * 8, 0.5, -50⟩⟩] := by
  obtain ⟨h1, h2, -, -, h5⟩ := animate_no_obstacles w r hrun hobs
  obtain ⟨u1, -, -, u4, u5, -, u7, -⟩ := updatePlayer_frame w
  have hn : (updatePlayer w).spawnTimer + 1 ≥ (updatePlayer w).spawnInterval := by
    rw [u4, u5]
    exact ht
  refine ⟨h1, h2, ?_⟩
  rw [h5]
  simp only [spawnObstacles, createObstacle, if_pos hn]
  split_ifs <;> simp [u1, hobs, u7]

/-- The state after 100 frames of a running game that starts without obstacles,
with the spawn timer at 0 and the spawn interval at 100. -/
theorem frames_first_spawn (w : World) (rs : List ℚ) (hrun : w.gameRunning = true)
    (hobs : w.obstacles = []) (htimer : w.spawnTimer = 0) (hint : w.spawnInterval = 100)
    (hlen : rs.length = 100) :
    (rs.foldl animate w).gameRunning = true ∧
    (rs.foldl animate w).gameStarted = w.gameStarted ∧
    ∃ (n : Nat) (r : ℚ), r ∈ rs ∧
      (rs.foldl animate w).obstacles = [⟨n, ⟨(r - 0.5) * 8, 0.5, -50⟩⟩] := by
  rcases List.eq_nil_or_concat rs with hnil | ⟨l, r, hrs⟩
  · subst hnil
    simp at hlen
  rw [List.concat_eq_append] at hrs
  subst hrs
  have hl : l.length = 99 := by simpa using hlen
  obtain ⟨a1, a2, a3, a4, a5⟩ := frames_idle l w hrun hobs (by rw [htimer, hint, hl]; norm_num)
  obtain ⟨b1, b2, b3⟩ := animate_spawn (l.foldl animate w) r a1 a5
    (by rw [a4, a3, htimer, hint, hl]; norm_num)
  simp only [List.foldl_append, List.foldl_cons, List.foldl_nil]
  exact ⟨b1, b2.trans a2, _, r, by simp, b3⟩

/-- C7: from a freshly started game (Running, no obstacles, spawn timer 0,
spawn interval 100), whatever the random draws in [0, 1), after exactly 100
frame updates the obstacles collection holds exactly one obstacle, at z = -50
and y = 0.5 with x in [-4, 4], and after each of the first 99 updates it is
still empty.  The score, the obstacle speed and the keys held play no part, so
the statement covers score 0, speed 0.1 and no key held. -/
theorem first_obstacle_after_100_frames (w : World) (rs : List ℚ) (hrun : Running w)
    (hobs : w.obstacles = []) (htimer : w.spawnTimer = 0) (hint : w.spawnInterval = 100)
    (hlen : rs.length = 100) (hdraws : ∀ r ∈ rs, 0 ≤ r ∧ r < 1) :
    (∃ o : Obstacle, (rs.foldl animate w).obstacles = [o] ∧
      o.position.z = -50 ∧ o.position.y = 0.5 ∧ -4 ≤ o.position.x ∧ o.position.x ≤ 4) ∧
    ∀ k : Nat, k < 100 → ((rs.take k).foldl animate w).obstacles = [] := by
  constructor
  · obtain ⟨-, -, n, r, hr, ho⟩ := frames_first_spawn w rs hrun.2 hobs htimer hint hlen
    obtain ⟨h0, h1⟩ := hdraws r hr
    refine ⟨_, ho, rfl, rfl, ?_, ?_⟩
    · show (-4 : ℚ) ≤ (r - 0.5) * 8
      norm_num
      linarith
    · show (r - 0.5) * 8 ≤ (4 : ℚ)
      norm_num
      linarith
  · intro k hk
    refine (frames_idle (rs.take k) w hrun.2 hobs ?_).2.2.2.2
    rw [htimer, hint, List.length_take, hlen]
    have : min k 100 = k := by omega
    rw [this]
    exact_mod_cast by omega

/-- The started game under 100 frames that each draw 0.5. -/
theorem first_obstacle_after_100_frames_witness :
    (∃ o : Obstacle,
      ((List.replicate 100 (0.5 : ℚ)).foldl animate startedWorld).obstacles = [o] ∧
      o.position.z = -50 ∧ o.position.y = 0.5 ∧ -4 ≤ o.position.x ∧ o.position.x ≤ 4) ∧
    ∀ k : Nat, k < 100 →
      (((List.replicate 100 (0.5 : ℚ)).take k).foldl animate startedWorld).obstacles = [] :=
  first_obstacle_after_100_frames startedWorld (List.replicate 100 0.5) ⟨rfl, rfl⟩ rfl rfl rfl
    (by simp)
    (by
      intro r hr
      rw [List.eq_of_mem_replicate hr]
      constructor <;> norm_num)

end Runner
